import Mathlib

set_option maxRecDepth 100000

/-!
Shallow embedding of the session/connection orchestration core of the
zoom-assistant backend: the Fireflies real-time connector with its polling
fallback (`services/fireflies_service.py`), the Deepgram transcription
service (`services/transcription_service.py`), the local-capture service
(`services/local_transcription_service.py`), the meeting manager / session
registry (`services/meeting_manager.py`), the webhook client
(`services/webhook_manager.py`) and the HTTP endpoint wrappers (`main.py`).

Pure data flow is translated function-by-function; I/O (socket sends,
HTTP requests, sleeps, task spawns) is reified as explicit `ConnectorAction` values
or as outcome parameters, so every definition is executable.
-/

/-- Python `str.strip` on the underlying character list: drop leading and
trailing whitespace. -/
def stripChars (l : List Char) : List Char :=
  ((l.dropWhile Char.isWhitespace).reverse.dropWhile Char.isWhitespace).reverse

/-- Python `s.strip()` (used instead of `String.trim`, whose implementation
does not reduce inside the kernel). -/
def pyStrip (s : String) : String := String.mk (stripChars s.data)

/-- Python truthiness of an optional string: `None` and `""` are falsy. -/
def strTruthy : Option String → Bool
  | none => false
  | some s => s ≠ ""

/-- Python `l[-n:]`: the last `n` elements (the whole list when shorter). -/
def lastN {α : Type} (n : Nat) (l : List α) : List α := l.drop (l.length - n)

/-- The rolling-buffer append used by both transcription services:
`buffer.append(text); if len(buffer) > max_buffer_size: buffer.pop(0)`. -/
def bufferAppend (max_buffer_size : Nat) (buf : List String) (text : String) : List String :=
  let b := buf ++ [text]
  if max_buffer_size < b.length then b.drop 1 else b

/-- `ConnectionMode` from `fireflies_service.py`. -/
inductive ConnectionMode where
  | socketio
  | polling
  | disconnected
deriving DecidableEq, Repr

/-- One `transcription.broadcast` event payload, as read by
`FirefliesService._on_transcription` (`chunk_id`, `text`, `speaker_name`,
`start_time`, `end_time`). -/
structure TranscriptionEvent where
  chunk_id : Option String
  text : String
  speaker_name : String
  start_time : Int
  end_time : Int
deriving DecidableEq, Repr

/-- One sentence of a polled transcript, as read by
`FirefliesService._process_polled_sentences`. -/
structure Sentence where
  index : Nat
  text : String
  speaker_name : String
  start_time : Int
  end_time : Int
deriving DecidableEq, Repr

/-- The segment dict built by `FirefliesService` (both the streaming and the
polling path); `chunk_id`/`sentence_index`/`source` are the context fields
that differ between the two paths. -/
structure Segment where
  speaker : String
  text : String
  segment_number : Nat
  is_final : Bool
  previous_segments : List String
  chunk_id : Option String
  sentence_index : Option Nat
  source : String
deriving DecidableEq, Repr

/-- A connection-status callback payload (`status` plus optional error). -/
structure StatusEvent where
  status : String
  error : Option String
deriving DecidableEq, Repr

/-- Reified side effects of the connector code paths. -/
inductive ConnectorAction where
  | emitStatus (e : StatusEvent)
  | sleep (seconds : Nat)
  | retryConnect
  | spawnPollingLoop
  | stopPollingTask
  | sioDisconnect
deriving DecidableEq, Repr

/-- The mutable state of a `FirefliesService` instance (`__init__`).
`polling_active` models `_polling_task` being a live task and `has_sio`
models `self.sio` being non-`None`. -/
structure FirefliesService where
  meeting_id : String
  fireflies_transcript_id : Option String
  connection_mode : ConnectionMode
  is_connected : Bool
  is_authenticated : Bool
  polling_active : Bool
  has_sio : Bool
  last_sentence_index : Nat
  segment_number : Nat
  transcript_buffer : List String
  max_buffer_size : Nat
  processed_chunks : List String
  reconnect_attempts : Nat
  max_reconnect_attempts : Nat
  reconnect_delay : Nat
deriving DecidableEq, Repr

/-- `FirefliesService.__init__`. -/
def FirefliesService.init (meeting_id : String) : FirefliesService :=
  { meeting_id := meeting_id
    fireflies_transcript_id := none
    connection_mode := ConnectionMode.disconnected
    is_connected := false
    is_authenticated := false
    polling_active := false
    has_sio := false
    last_sentence_index := 0
    segment_number := 0
    transcript_buffer := []
    max_buffer_size := 50
    processed_chunks := []
    reconnect_attempts := 0
    max_reconnect_attempts := 3
    reconnect_delay := 5 }

/-- Tail of `FirefliesService._on_transcription` once the fragment survived
the emptiness and dedup checks: build the segment, bump the counter and the
rolling buffer. -/
def FirefliesService.emitRealtimeSegment (s : FirefliesService) (data : TranscriptionEvent)
    (text : String) : FirefliesService × Option Segment :=
  let segment : Segment :=
    { speaker := data.speaker_name
      text := text
      segment_number := s.segment_number
      is_final := true
      previous_segments := lastN 5 s.transcript_buffer
      chunk_id := data.chunk_id
      sentence_index := none
      source := "realtime" }
  ({ s with
      segment_number := s.segment_number + 1
      transcript_buffer := bufferAppend s.max_buffer_size s.transcript_buffer text },
   some segment)

/-- `FirefliesService._on_transcription`: drop empty text, deduplicate on a
truthy `chunk_id`, then emit. -/
def FirefliesService.onTranscription (s : FirefliesService) (data : TranscriptionEvent) :
    FirefliesService × Option Segment :=
  let text := pyStrip data.text
  if text = "" then (s, none)
  else
    match data.chunk_id with
    | some c =>
      if c ≠ "" then
        if c ∈ s.processed_chunks then (s, none)
        else FirefliesService.emitRealtimeSegment
          { s with processed_chunks := c :: s.processed_chunks } data text
      else FirefliesService.emitRealtimeSegment s data text
    | none => FirefliesService.emitRealtimeSegment s data text

/-- `FirefliesService._process_polled_sentences`: per sentence, skip indices
not above `_last_sentence_index`, advance the tracker, drop empty text, and
otherwise emit with the shared `segment_number` counter. -/
def FirefliesService.processPolledSentences :
    FirefliesService → List Sentence → FirefliesService × List Segment
  | s, [] => (s, [])
  | s, sentence :: rest =>
    if sentence.index ≤ s.last_sentence_index then
      FirefliesService.processPolledSentences s rest
    else
      let s1 := { s with last_sentence_index := sentence.index }
      let text := pyStrip sentence.text
      if text = "" then FirefliesService.processPolledSentences s1 rest
      else
        let segment : Segment :=
          { speaker := sentence.speaker_name
            text := text
            segment_number := s1.segment_number
            is_final := true
            previous_segments := lastN 5 s1.transcript_buffer
            chunk_id := none
            sentence_index := some sentence.index
            source := "polling" }
        let s2 := { s1 with
          segment_number := s1.segment_number + 1
          transcript_buffer := bufferAppend s1.max_buffer_size s1.transcript_buffer text }
        let next := FirefliesService.processPolledSentences s2 rest
        (next.1, segment :: next.2)

/-- One unit of input reaching the service: either a streaming broadcast
event or one poll result (a batch of sentences). -/
inductive FirefliesInput where
  | broadcast (data : TranscriptionEvent)
  | polled (sentences : List Sentence)
deriving DecidableEq, Repr

/-- Dispatch one input to the matching handler. -/
def FirefliesService.step (s : FirefliesService) : FirefliesInput → FirefliesService × List Segment
  | FirefliesInput.broadcast data =>
    let r := s.onTranscription data
    (r.1, r.2.toList)
  | FirefliesInput.polled sentences => s.processPolledSentences sentences

/-- Process a whole input sequence, collecting emitted segments in order. -/
def FirefliesService.run : FirefliesService → List FirefliesInput → FirefliesService × List Segment
  | s, [] => (s, [])
  | s, ev :: evs =>
    let r1 := s.step ev
    let r2 := FirefliesService.run r1.1 evs
    (r2.1, r1.2 ++ r2.2)

/-- `FirefliesService.get_full_transcript`: `" ".join(transcript_buffer)`. -/
def FirefliesService.getFullTranscript (s : FirefliesService) : String :=
  String.intercalate " " s.transcript_buffer

/-- `FirefliesService._start_polling` (early-returns when the polling task is
already live). -/
def FirefliesService.startPolling (s : FirefliesService) : FirefliesService × List ConnectorAction :=
  if s.polling_active then (s, [])
  else
    ({ s with
        connection_mode := ConnectionMode.polling
        is_connected := true
        polling_active := true },
     [ConnectorAction.emitStatus { status := "polling", error := none }, ConnectorAction.spawnPollingLoop])

/-- `FirefliesService._handle_reconnect`. -/
def FirefliesService.handleReconnect (s : FirefliesService) : FirefliesService × List ConnectorAction :=
  match s.fireflies_transcript_id with
  | none => (s, [])
  | some _ =>
    if s.max_reconnect_attempts ≤ s.reconnect_attempts then s.startPolling
    else
      let attempts := s.reconnect_attempts + 1
      ({ s with reconnect_attempts := attempts },
       [ConnectorAction.sleep (s.reconnect_delay * attempts), ConnectorAction.retryConnect])

/-- A failed `connect` call: the `except` branches set `is_connected = False`
and invoke `_handle_reconnect`. -/
def FirefliesService.failedConnectAttempt (s : FirefliesService) : FirefliesService × List ConnectorAction :=
  FirefliesService.handleReconnect { s with is_connected := false }

/-- State after `n` consecutive failed connection attempts. -/
def FirefliesService.afterFailures (s : FirefliesService) : Nat → FirefliesService
  | 0 => s
  | n + 1 => (FirefliesService.afterFailures s n).failedConnectAttempt.1

/-- `FirefliesService.disconnect`: stop polling when active, clear flags and
drop the Socket.IO client. -/
def FirefliesService.disconnect (s : FirefliesService) : FirefliesService × List ConnectorAction :=
  let pollingActs :=
    if s.connection_mode = ConnectionMode.polling then [ConnectorAction.stopPollingTask] else []
  let sioActs := if s.has_sio then [ConnectorAction.sioDisconnect] else []
  ({ s with
      is_connected := false
      is_authenticated := false
      connection_mode := ConnectionMode.disconnected
      polling_active := false
      has_sio := false },
   pollingActs ++ sioActs)

/-- `FirefliesService._on_auth_failed`: clear authentication, report the
`auth_failed` status (the status callback is registered by the manager) and
disconnect; no reconnect is attempted. -/
def FirefliesService.onAuthFailed (s : FirefliesService) (data_message : Option String) :
    FirefliesService × List ConnectorAction :=
  let error_msg := data_message.getD "Unknown authentication error"
  let r := FirefliesService.disconnect { s with is_authenticated := false }
  (r.1, ConnectorAction.emitStatus { status := "auth_failed", error := some error_msg } :: r.2)

/-- One word of a Deepgram alternative; `speaker` is present only with
diarization. -/
structure DGWord where
  speaker : Option Nat
deriving DecidableEq, Repr

/-- One Deepgram live result as read by `TranscriptionService._on_message`. -/
structure DGResult where
  transcript : String
  is_final : Bool
  speech_final : Bool
  confidence : Int
  words : List DGWord
deriving DecidableEq, Repr

/-- The segment dict built by `TranscriptionService._on_message`. -/
structure DGSegment where
  speaker : String
  text : String
  segment_number : Nat
  is_final : Bool
  confidence : Int
  previous_segments : List String
deriving DecidableEq, Repr

/-- Mutable state of `TranscriptionService` (`__init__`, buffer cap 10). -/
structure TranscriptionService where
  meeting_id : String
  is_streaming : Bool
  segment_number : Nat
  transcript_buffer : List String
  max_buffer_size : Nat
deriving DecidableEq, Repr

/-- `TranscriptionService.__init__`. -/
def TranscriptionService.init (meeting_id : String) : TranscriptionService :=
  { meeting_id := meeting_id
    is_streaming := false
    segment_number := 0
    transcript_buffer := []
    max_buffer_size := 10 }

/-- `TranscriptionService._on_message`: drop empty or interim results, then
emit a numbered final segment. -/
def TranscriptionService.onMessage (s : TranscriptionService) (result : DGResult) :
    TranscriptionService × Option DGSegment :=
  if result.transcript = "" ∨ pyStrip result.transcript = "" then (s, none)
  else if result.is_final = false then (s, none)
  else
    let speaker : Option String :=
      match result.words with
      | [] => none
      | w :: _ => w.speaker.map (fun n => "speaker_" ++ toString n)
    let segment : DGSegment :=
      { speaker := speaker.getD "unknown"
        text := result.transcript
        segment_number := s.segment_number
        is_final := result.is_final
        confidence := result.confidence
        previous_segments := lastN 5 s.transcript_buffer }
    ({ s with
        segment_number := s.segment_number + 1
        transcript_buffer := bufferAppend s.max_buffer_size s.transcript_buffer result.transcript },
     some segment)

/-- Process a sequence of Deepgram results. -/
def TranscriptionService.run :
    TranscriptionService → List DGResult → TranscriptionService × List DGSegment
  | s, [] => (s, [])
  | s, r :: rs =>
    let r1 := s.onMessage r
    let r2 := TranscriptionService.run r1.1 rs
    (r2.1, r1.2.toList ++ r2.2)

/-- `TranscriptionService.get_full_transcript`. -/
def TranscriptionService.getFullTranscript (s : TranscriptionService) : String :=
  String.intercalate " " s.transcript_buffer

/-- One parsed Deepgram websocket message as read by
`LocalTranscriptionService._receive_transcripts`; `word_speakers` is the
`speaker` field of each word (`None` when absent). -/
structure LocalMessage where
  has_channel : Bool
  transcript : String
  confidence : Int
  is_final : Bool
  word_speakers : List (Option Nat)
deriving DecidableEq, Repr

/-- The segment dict built by the local service (note: no segment number). -/
structure LocalSegment where
  speaker : String
  segment : String
  confidence : Int
  is_final : Bool
deriving DecidableEq, Repr

/-- Mutable state of `LocalTranscriptionService`. -/
structure LocalTranscriptionService where
  running : Bool
  segment_count : Nat
  full_transcript : List String
deriving DecidableEq, Repr

/-- `LocalTranscriptionService.__init__`. -/
def LocalTranscriptionService.init : LocalTranscriptionService :=
  { running := false, segment_count := 0, full_transcript := [] }

/-- `LocalTranscriptionService.start` (state reset part). -/
def LocalTranscriptionService.start (_s : LocalTranscriptionService) : LocalTranscriptionService :=
  { running := true, segment_count := 0, full_transcript := [] }

/-- Body of `_receive_transcripts` for one parsed message: every message with
a channel and a truthy transcript is emitted (interim results included);
only final texts are appended to the full transcript. -/
def LocalTranscriptionService.onMessage (s : LocalTranscriptionService) (m : LocalMessage) :
    LocalTranscriptionService × Option LocalSegment :=
  if m.has_channel = false then (s, none)
  else if m.transcript = "" then (s, none)
  else
    let speaker_id : Nat :=
      match m.word_speakers with
      | [] => 0
      | w :: _ => w.getD 0
    let segment : LocalSegment :=
      { speaker := "speaker_" ++ toString speaker_id
        segment := m.transcript
        confidence := m.confidence
        is_final := m.is_final }
    ({ s with
        segment_count := s.segment_count + 1
        full_transcript :=
          if m.is_final then s.full_transcript ++ [m.transcript] else s.full_transcript },
     some segment)

/-- Process a sequence of local-service messages. -/
def LocalTranscriptionService.run :
    LocalTranscriptionService → List LocalMessage → LocalTranscriptionService × List LocalSegment
  | s, [] => (s, [])
  | s, m :: ms =>
    let r1 := s.onMessage m
    let r2 := LocalTranscriptionService.run r1.1 ms
    (r2.1, r1.2.toList ++ r2.2)

/-- `LocalTranscriptionService.get_full_transcript`. -/
def LocalTranscriptionService.getFullTranscript (s : LocalTranscriptionService) : String :=
  String.intercalate " " s.full_transcript

/-- One registered frontend WebSocket; `send_fails` models whether
`ws.send_json` raises on delivery. -/
structure WSConn where
  ws_id : Nat
  send_fails : Bool
deriving DecidableEq, Repr

/-- `ws.send_json(message)`: succeeds or raises. -/
def WSConn.sendJson (ws : WSConn) : Except String Unit :=
  if ws.send_fails then Except.error "Error sending to WebSocket" else Except.ok ()

/-- The delivery loop of `MeetingManager._broadcast_to_websockets`: each send
is tried under its own `try/except`, successes are delivered and failures are
collected in `disconnected`. Returns (delivered ids, disconnected). -/
def broadcastLoop : List WSConn → List Nat × List WSConn
  | [] => ([], [])
  | ws :: rest =>
    let r := broadcastLoop rest
    match ws.sendJson with
    | Except.ok _ => (ws.ws_id :: r.1, r.2)
    | Except.error _ => (r.1, ws :: r.2)

/-- `MeetingManager._broadcast_to_websockets` for one session's socket list:
deliver to everyone, then `websockets.remove(ws)` for each collected failure.
Returns the new socket list and the ids actually delivered to. -/
def broadcastToWebsockets (websockets : List WSConn) : List WSConn × List Nat :=
  let r := broadcastLoop websockets
  (r.2.foldl (fun l w => l.erase w) websockets, r.1)

/-- `MeetingSession` (`meeting_manager.py`): per-session services, sockets and
stats. `start_time` is in epoch seconds. -/
structure MeetingSession where
  meeting_id : String
  meeting_name : String
  meeting_url : String
  start_time : Nat
  fireflies : Option FirefliesService
  transcription : Option TranscriptionService
  local_transcription : Option LocalTranscriptionService
  websockets : List WSConn
  segment_count : Nat
  speaker_stats : List (String × Nat)
deriving DecidableEq, Repr

/-- `MeetingSession.__init__`. -/
def MeetingSession.init (meeting_id meeting_name meeting_url : String) (start_time : Nat) :
    MeetingSession :=
  { meeting_id := meeting_id
    meeting_name := meeting_name
    meeting_url := meeting_url
    start_time := start_time
    fireflies := none
    transcription := none
    local_transcription := none
    websockets := []
    segment_count := 0
    speaker_stats := [] }

/-- `MeetingSession.get_duration_minutes` at wall-clock `now` (seconds). -/
def MeetingSession.getDurationMinutes (s : MeetingSession) (now : Nat) : ℚ :=
  ((now - s.start_time : Nat) : ℚ) / 60

/-- `speaker_stats[speaker] = speaker_stats.get(speaker, 0) + 1` on an
insertion-ordered association list (Python dict). -/
def speakerStatsIncrement : List (String × Nat) → String → List (String × Nat)
  | [], k => [(k, 1)]
  | (k', n) :: rest, k =>
    if k' = k then (k', n + 1) :: rest else (k', n) :: speakerStatsIncrement rest k

/-- Sum of all per-speaker counts. -/
def statsTotal (stats : List (String × Nat)) : Nat := (stats.map Prod.snd).sum

/-- Python `stats.get(k, 0)`. -/
def statsLookup (stats : List (String × Nat)) (k : String) : Nat :=
  ((stats.find? (fun p => p.1 = k)).map Prod.snd).getD 0

/-- `MeetingManager._on_transcript` restricted to one (existing) session:
bump `segment_count`, bump the count of `segment.get("speaker", "unknown")`,
then broadcast `transcript_update` to the session's sockets (the webhook
forward is fire-and-forget I/O). `segment_speaker` is the segment dict's
optional `speaker` entry. -/
def MeetingSession.onTranscript (sess : MeetingSession) (segment_speaker : Option String) :
    MeetingSession :=
  let sess1 := { sess with
    segment_count := sess.segment_count + 1
    speaker_stats := speakerStatsIncrement sess.speaker_stats (segment_speaker.getD "unknown") }
  { sess1 with websockets := (broadcastToWebsockets sess1.websockets).1 }

/-- `MeetingManager`: the session registry. -/
structure MeetingManager where
  sessions : List (String × MeetingSession)
deriving DecidableEq, Repr

/-- `self.sessions.get(meeting_id)`. -/
def MeetingManager.lookup (m : MeetingManager) (meeting_id : String) : Option MeetingSession :=
  ((m.sessions.find? (fun p => p.1 = meeting_id)).map Prod.snd)

/-- Result of `MeetingManager.stop_meeting`: the unknown-id path only logs a
warning and returns. -/
inductive StopOutcome where
  | notFoundWarning
  | stopped
deriving DecidableEq, Repr

/-- `MeetingManager.stop_meeting`: unknown ids log a warning and leave the
registry untouched; otherwise services and sockets are shut down (I/O) and
the session is removed from the map. -/
def MeetingManager.stopMeeting (m : MeetingManager) (meeting_id : String) :
    MeetingManager × StopOutcome :=
  match m.lookup meeting_id with
  | none => (m, StopOutcome.notFoundWarning)
  | some _ =>
    ({ sessions := m.sessions.eraseP (fun p => p.1 == meeting_id) }, StopOutcome.stopped)

/-- The Pydantic `MeetingResponse` of `main.py`. -/
structure MeetingResponse where
  meeting_id : String
  status : String
  message : Option String
deriving DecidableEq, Repr

/-- An HTTP endpoint result: a 200 body or an `HTTPException`. -/
inductive HttpReply where
  | ok (response : MeetingResponse)
  | httpError (status_code : Nat) (detail : String)
deriving DecidableEq, Repr

/-- The `POST /api/meeting/stop` endpoint: awaits `stop_meeting` and always
answers `status="stopped"` (the 500 branch fires only when `stop_meeting`
raises, which it does not for an unknown id). -/
def stopMeetingEndpoint (m : MeetingManager) (meeting_id : String) :
    MeetingManager × HttpReply :=
  let r := m.stopMeeting meeting_id
  (r.1, HttpReply.ok
    { meeting_id := meeting_id
      status := "stopped"
      message := some "Meeting stopped successfully" })

/-- The `conversation_context` built by `MeetingManager.process_command`. -/
structure CommandContext where
  duration_minutes : ℚ
  total_segments : Nat
  speaker_distribution : List (String × Nat)

/-- The data `process_command` hands to `WebhookManager.send_command`. -/
structure CommandPayload where
  meeting_id : String
  command : String
  full_transcript : String
  conversation_context : CommandContext

/-- `MeetingManager.process_command` up to the webhook call: gather the full
transcript (Fireflies buffer, else Deepgram buffer, else empty — the local
service is not consulted) and the context summary. `none` models the
"Meeting nicht gefunden" early return for an unknown session. -/
def MeetingManager.processCommandPayload (m : MeetingManager) (now : Nat)
    (meeting_id command : String) : Option CommandPayload :=
  match m.lookup meeting_id with
  | none => none
  | some session =>
    let full_transcript :=
      match session.fireflies with
      | some ff => ff.getFullTranscript
      | none =>
        match session.transcription with
        | some t => t.getFullTranscript
        | none => ""
    some
      { meeting_id := meeting_id
        command := command
        full_transcript := full_transcript
        conversation_context :=
          { duration_minutes := session.getDurationMinutes now
            total_segments := session.segment_count
            speaker_distribution := session.speaker_stats } }

/-- The top-level names bound in the `webhook_manager.py` module (its import
lines 1-9 plus module globals). `asyncio` is not among them. -/
def webhookManagerModuleNames : List String :=
  ["aiohttp", "logging", "Optional", "Dict", "Any", "datetime", "logger", "WebhookManager"]

/-- A Python exception escaping a function. -/
inductive PyError where
  | nameError (name : String)
deriving DecidableEq, Repr

/-- The n8n command response shape. -/
structure CommandResponse where
  response : String
  suggestions : List String
deriving DecidableEq, Repr

/-- Result of a Python call: a value or a raised exception. -/
inductive PyResult (α : Type) where
  | ok (value : α)
  | raised (err : PyError)
deriving DecidableEq, Repr

/-- The `total=` seconds of the `aiohttp.ClientTimeout` passed by
`WebhookManager.send_command`. -/
def send_command_timeout_total : Nat := 30

/-- How the surrounding world answers the POST issued by `send_command`. -/
inductive HttpAttempt where
  | responds (status : Nat) (body : CommandResponse) (elapsed_seconds : Nat)
  | failsWith (message : String)
deriving DecidableEq, Repr

/-- `WebhookManager.send_command`, given the network outcome. When the
request exceeds the 30s budget aiohttp raises `asyncio.TimeoutError`; the
handler clause names `asyncio.TimeoutError`, and evaluating that clause
looks up `asyncio` in the module namespace — an unbound name raises
`NameError` out of the function (the later `except Exception` clause is
never reached, since the lookup fails while selecting a handler). The same
lookup precedes the generic handler for any other in-`try` exception. -/
def WebhookManager.send_command (attempt : HttpAttempt) : PyResult (Option CommandResponse) :=
  match attempt with
  | HttpAttempt.responds status body elapsed =>
    if send_command_timeout_total < elapsed then
      if "asyncio" ∈ webhookManagerModuleNames then
        PyResult.ok (some
          { response := "Die Anfrage hat zu lange gedauert. Bitte versuchen Sie es erneut."
            suggestions := [] })
      else PyResult.raised (PyError.nameError "asyncio")
    else if status = 200 then PyResult.ok (some body)
    else PyResult.ok none
  | HttpAttempt.failsWith message =>
    if "asyncio" ∈ webhookManagerModuleNames then
      PyResult.ok (some
        { response := "Fehler bei der Verarbeitung: " ++ message
          suggestions := [] })
    else PyResult.raised (PyError.nameError "asyncio")

/-- Number of emitted segments carrying dedup key `c`. -/
def keyCount (c : String) (segs : List Segment) : Nat :=
  segs.countP (fun seg => seg.chunk_id == some c)

/-- The `sentence_index` values of the polled segments among `segs`. -/
def polledIndices (segs : List Segment) : List Nat :=
  segs.filterMap Segment.sentence_index

/-- Scenario: three interim fragments then one final fragment, as parsed by
the local service. -/
def c3LocalMessages : List LocalMessage :=
  [ { has_channel := true, transcript := "Hallo", confidence := 0,
      is_final := false, word_speakers := [] },
    { has_channel := true, transcript := "Hallo wie", confidence := 0,
      is_final := false, word_speakers := [] },
    { has_channel := true, transcript := "Hallo wie geht", confidence := 0,
      is_final := false, word_speakers := [] },
    { has_channel := true, transcript := "Hallo wie geht es dir", confidence := 0,
      is_final := true, word_speakers := [] } ]

/-- The same scenario as Deepgram live results fed to
`TranscriptionService._on_message`. -/
def c3DGResults : List DGResult :=
  [ { transcript := "Hallo", is_final := false, speech_final := false,
      confidence := 0, words := [] },
    { transcript := "Hallo wie", is_final := false, speech_final := false,
      confidence := 0, words := [] },
    { transcript := "Hallo wie geht", is_final := false, speech_final := false,
      confidence := 0, words := [] },
    { transcript := "Hallo wie geht es dir", is_final := true, speech_final := true,
      confidence := 0, words := [] } ]

/-- A service right after its first `connect(transcript_id)` call raised:
the Socket.IO client exists and the transcript id is recorded. -/
def fsConnecting : FirefliesService :=
  { FirefliesService.init "m" with fireflies_transcript_id := some "T", has_sio := true }

/-- 51 identical one-word broadcast fragments. -/
def repeatedBroadcasts : List FirefliesInput :=
  List.replicate 51 (FirefliesInput.broadcast
    { chunk_id := none, text := "a", speaker_name := "Alice", start_time := 0, end_time := 0 })

/-- The session after those 51 fragments were emitted and counted. -/
def sessionAfter51 : MeetingSession :=
  { MeetingSession.init "m" "Demo" "" 0 with
      fireflies := some (FirefliesService.run (FirefliesService.init "m") repeatedBroadcasts).1
      segment_count := 51 }

/-- A registry holding only that session. -/
def managerAfter51 : MeetingManager := { sessions := [("m", sessionAfter51)] }

/-- Auxiliary: the status events among a list of connector actions. -/
def statusEventsOf (acts : List ConnectorAction) : List StatusEvent :=
  acts.filterMap (fun a =>
    match a with
    | ConnectorAction.emitStatus e => some e
    | _ => none)

/-- Scenario: two broadcast fragments sharing `dedup_key = "chunk-42"`. -/
def twoChunkEvents : List FirefliesInput :=
  [ FirefliesInput.broadcast
      { chunk_id := some "chunk-42", text := "Hallo", speaker_name := "A",
        start_time := 0, end_time := 0 },
    FirefliesInput.broadcast
      { chunk_id := some "chunk-42", text := "Hallo zwei", speaker_name := "A",
        start_time := 0, end_time := 0 } ]

/-- `l[-n:]` is all of `l` when `l` is short enough. -/
theorem lastN_eq_self {α : Type} (n : Nat) (l : List α) (h : l.length ≤ n) :
    lastN n l = l := by
  unfold lastN
  rw [Nat.sub_eq_zero_of_le h, List.drop_zero]

/-- Dropping a prefix does not change the last `n` elements. -/
theorem lastN_drop {α : Type} (n k : Nat) (l : List α) (h : k + n ≤ l.length) :
    lastN n (l.drop k) = lastN n l := by
  unfold lastN
  rw [List.length_drop, List.drop_drop]
  congr 1
  omega

/-- The last `n` elements of an extended list only depend on the last `n`
elements of the original list. -/
theorem lastN_append_lastN {α : Type} (n : Nat) (l t : List α) :
    lastN n (lastN n l ++ t) = lastN n (l ++ t) := by
  by_cases h : l.length ≤ n
  · rw [lastN_eq_self n l h]
  · have hdrop : lastN n l ++ t = (l ++ t).drop (l.length - n) := by
      show (l.drop (l.length - n)) ++ t = (l ++ t).drop (l.length - n)
      rw [List.drop_append_eq_append_drop, Nat.sub_eq_zero_of_le (Nat.sub_le _ _),
        List.drop_zero]
    rw [hdrop, lastN_drop]
    rw [List.length_append]
    omega

/-- One rolling-buffer append keeps the last `m` elements. -/
theorem bufferAppend_eq_lastN (m : Nat) (buf : List String) (t : String)
    (h : buf.length ≤ m) :
    bufferAppend m buf t = lastN m (buf ++ [t]) ∧ (bufferAppend m buf t).length ≤ m := by
  unfold bufferAppend
  by_cases hc : m < (buf ++ [t]).length
  · have hl : (buf ++ [t]).length = m + 1 := by
      rw [List.length_append] at hc ⊢
      simp only [List.length_singleton] at hc ⊢
      omega
    rw [if_pos hc]
    constructor
    · unfold lastN
      rw [hl]
      congr 1
      omega
    · rw [List.length_drop, hl]
      omega
  · rw [if_neg hc]
    constructor
    · rw [lastN_eq_self m _ (Nat.le_of_not_lt hc)]
    · exact Nat.le_of_not_lt hc

/-- Folding rolling-buffer appends over `ts` keeps exactly the last `m`
elements of `buf ++ ts`. -/
theorem foldl_bufferAppend_lastN (m : Nat) :
    ∀ (ts : List String) (buf : List String), buf.length ≤ m →
      ts.foldl (bufferAppend m) buf = lastN m (buf ++ ts) ∧
        (ts.foldl (bufferAppend m) buf).length ≤ m
  | [], buf, h => by
    refine ⟨?_, h⟩
    simp [lastN_eq_self m buf h]
  | t :: ts, buf, h => by
    have hstep := bufferAppend_eq_lastN m buf t h
    have ih := foldl_bufferAppend_lastN m ts (bufferAppend m buf t) hstep.2
    simp only [List.foldl_cons]
    refine ⟨?_, ih.2⟩
    rw [ih.1, hstep.1, lastN_append_lastN]
    simp

/-- `_on_transcription` numbers an emitted segment with the current counter
and advances the counter exactly by the number of emitted segments. -/
theorem onTranscription_numbering (s : FirefliesService) (data : TranscriptionEvent) :
    (s.onTranscription data).2.toList.map Segment.segment_number
        = List.range' s.segment_number (s.onTranscription data).2.toList.length ∧
      (s.onTranscription data).1.segment_number
        = s.segment_number + (s.onTranscription data).2.toList.length := by
  obtain ⟨chunk_id, txt, sp, st, et⟩ := data
  unfold FirefliesService.onTranscription FirefliesService.emitRealtimeSegment
  cases chunk_id with
  | none =>
    by_cases htext : pyStrip txt = "" <;> simp [htext, List.range'_one]
  | some c =>
    by_cases htext : pyStrip txt = ""
    · simp [htext]
    · by_cases hce : c = ""
      · simp [htext, hce, List.range'_one]
      · by_cases hmem : c ∈ s.processed_chunks
        · simp [htext, hce, hmem]
        · simp [htext, hce, hmem, List.range'_one]

/-- `_process_polled_sentences` numbers emitted segments consecutively from
the current counter and advances the counter by the number emitted. -/
theorem processPolledSentences_numbering (sents : List Sentence) :
    ∀ (s : FirefliesService),
      (s.processPolledSentences sents).2.map Segment.segment_number
          = List.range' s.segment_number (s.processPolledSentences sents).2.length ∧
        (s.processPolledSentences sents).1.segment_number
          = s.segment_number + (s.processPolledSentences sents).2.length := by
  induction sents with
  | nil => intro s; simp [FirefliesService.processPolledSentences]
  | cons sent rest ih =>
    intro s
    rw [FirefliesService.processPolledSentences]
    split
    · exact ih s
    · simp only []
      split
      · exact ih _
      · have ihe := ih { s with
          last_sentence_index := sent.index
          segment_number := s.segment_number + 1
          transcript_buffer := bufferAppend s.max_buffer_size s.transcript_buffer
            (pyStrip sent.text) }
        simp only [List.map_cons, List.length_cons]
        rw [ihe.1, ihe.2]
        refine ⟨?_, by dsimp only []; omega⟩
        rw [List.range'_succ]

/-- One `step` numbers its emitted segments consecutively from the current
counter and advances the counter by the number emitted. -/
theorem step_numbering (s : FirefliesService) (ev : FirefliesInput) :
    (s.step ev).2.map Segment.segment_number
        = List.range' s.segment_number (s.step ev).2.length ∧
      (s.step ev).1.segment_number = s.segment_number + (s.step ev).2.length := by
  cases ev with
  | broadcast data => exact onTranscription_numbering s data
  | polled sentences => exact processPolledSentences_numbering sentences s

/-- A whole `run` numbers its emitted segments consecutively from the current
counter and advances the counter by the number emitted. -/
theorem run_numbering (inputs : List FirefliesInput) :
    ∀ (s : FirefliesService),
      (s.run inputs).2.map Segment.segment_number
          = List.range' s.segment_number (s.run inputs).2.length ∧
        (s.run inputs).1.segment_number = s.segment_number + (s.run inputs).2.length := by
  induction inputs with
  | nil => intro s; simp [FirefliesService.run]
  | cons ev evs ih =>
    intro s
    rw [FirefliesService.run]
    simp only [List.map_append, List.length_append]
    have h1 := step_numbering s ev
    have h2 := ih (s.step ev).1
    rw [h1.1, h2.1, h1.2, h2.2]
    refine ⟨?_, by omega⟩
    rw [List.range'_append_1]
    congr 1
    omega

/-- `TranscriptionService._on_message` numbers an emitted segment with the
current counter and advances the counter by the number emitted. -/
theorem dgOnMessage_numbering (s : TranscriptionService) (result : DGResult) :
    (s.onMessage result).2.toList.map DGSegment.segment_number
        = List.range' s.segment_number (s.onMessage result).2.toList.length ∧
      (s.onMessage result).1.segment_number
        = s.segment_number + (s.onMessage result).2.toList.length := by
  unfold TranscriptionService.onMessage
  split
  · simp
  · split
    · simp
    · simp [List.range'_one]

/-- `TranscriptionService.run` numbers its emitted segments consecutively
from the current counter. -/
theorem dgRun_numbering (results : List DGResult) :
    ∀ (s : TranscriptionService),
      (s.run results).2.map DGSegment.segment_number
          = List.range' s.segment_number (s.run results).2.length ∧
        (s.run results).1.segment_number = s.segment_number + (s.run results).2.length := by
  induction results with
  | nil => intro s; simp [TranscriptionService.run]
  | cons r rs ih =>
    intro s
    rw [TranscriptionService.run]
    simp only [List.map_append, List.length_append]
    have h1 := dgOnMessage_numbering s r
    have h2 := ih (s.onMessage r).1
    rw [h1.1, h2.1, h1.2, h2.2]
    refine ⟨?_, by omega⟩
    rw [List.range'_append_1]
    congr 1
    omega

/-- Claim C1: in a session's sequencing service the emitted segment numbers
are exactly 0, 1, 2, ... in emission order — the counter starts at 0 and is
bumped once per surviving fragment. For `FirefliesService` this covers any
interleaving of the streaming path and the polling path, which share the one
`segment_number` counter; the Deepgram `TranscriptionService` sequencer
satisfies the same contract. -/
theorem segment_numbers_contiguous (mid : String) (inputs : List FirefliesInput)
    (results : List DGResult) :
    ((FirefliesService.init mid).run inputs).2.map Segment.segment_number
        = List.range ((FirefliesService.init mid).run inputs).2.length ∧
      ((TranscriptionService.init mid).run results).2.map DGSegment.segment_number
        = List.range ((TranscriptionService.init mid).run results).2.length := by
  constructor
  · rw [List.range_eq_range']
    exact (run_numbering inputs (FirefliesService.init mid)).1
  · rw [List.range_eq_range']
    exact (dgRun_numbering results (TranscriptionService.init mid)).1

/-- Polled segments never carry a `chunk_id`. -/
theorem processPolledSentences_chunk_id_none (sents : List Sentence) :
    ∀ (s : FirefliesService) (seg : Segment),
      seg ∈ (s.processPolledSentences sents).2 → seg.chunk_id = none := by
  induction sents with
  | nil => intro s seg h; simp [FirefliesService.processPolledSentences] at h
  | cons sent rest ih =>
    intro s seg h
    rw [FirefliesService.processPolledSentences] at h
    split at h
    · exact ih s seg h
    · simp only [] at h
      split at h
      · exact ih _ seg h
      · rcases List.mem_cons.mp h with heq | hmem
        · rw [heq]
        · exact ih _ seg hmem

/-- The polling path never touches `processed_chunks`. -/
theorem processPolledSentences_processed_chunks (sents : List Sentence) :
    ∀ (s : FirefliesService),
      (s.processPolledSentences sents).1.processed_chunks = s.processed_chunks := by
  induction sents with
  | nil => intro s; simp [FirefliesService.processPolledSentences]
  | cons sent rest ih =>
    intro s
    rw [FirefliesService.processPolledSentences]
    split
    · exact ih s
    · simp only []
      split
      · exact ih _
      · exact ih _

/-- `_on_transcription` only ever grows the processed-chunk set. -/
theorem onTranscription_processed_mono (s : FirefliesService) (data : TranscriptionEvent)
    (c : String) (h : c ∈ s.processed_chunks) :
    c ∈ (s.onTranscription data).1.processed_chunks := by
  obtain ⟨chunk_id, txt, sp, st, et⟩ := data
  unfold FirefliesService.onTranscription FirefliesService.emitRealtimeSegment
  cases chunk_id with
  | none => by_cases htext : pyStrip txt = "" <;> simp [htext, h]
  | some c' =>
    by_cases htext : pyStrip txt = ""
    · simpa [htext] using h
    · by_cases hce : c' = ""
      · simpa [htext, hce] using h
      · by_cases hmem : c' ∈ s.processed_chunks
        · simpa [htext, hce, hmem] using h
        · simp [htext, hce, hmem, List.mem_cons, h]

/-- One `step` keeps processed chunks. -/
theorem step_processed_mono (s : FirefliesService) (ev : FirefliesInput) (c : String)
    (h : c ∈ s.processed_chunks) : c ∈ (s.step ev).1.processed_chunks := by
  cases ev with
  | broadcast data => exact onTranscription_processed_mono s data c h
  | polled sentences =>
    rw [FirefliesService.step, processPolledSentences_processed_chunks]
    exact h

/-- Per `step`: a key already processed is never re-emitted; at most one
emission per key; an emission for a key records the key. -/
theorem step_keyCount (s : FirefliesService) (ev : FirefliesInput) (c : String) (hc : c ≠ "") :
    (c ∈ s.processed_chunks → keyCount c (s.step ev).2 = 0) ∧
      keyCount c (s.step ev).2 ≤ 1 ∧
      (1 ≤ keyCount c (s.step ev).2 → c ∈ (s.step ev).1.processed_chunks) := by
  cases ev with
  | polled sentences =>
    have hz : keyCount c (s.step (FirefliesInput.polled sentences)).2 = 0 := by
      rw [keyCount, List.countP_eq_zero]
      intro seg hseg
      have := processPolledSentences_chunk_id_none sentences s seg hseg
      simp [this]
    rw [hz]
    exact ⟨fun _ => rfl, by omega, by omega⟩
  | broadcast data =>
    obtain ⟨chunk_id, txt, sp, st, et⟩ := data
    simp only [FirefliesService.step]
    unfold FirefliesService.onTranscription FirefliesService.emitRealtimeSegment
    cases chunk_id with
    | none =>
      by_cases htext : pyStrip txt = "" <;>
        simp [htext, keyCount, List.countP_cons]
    | some c' =>
      by_cases htext : pyStrip txt = ""
      · simp [htext, keyCount]
      · by_cases hce : c' = ""
        · subst hce
          simp [htext, keyCount, List.countP_cons, Ne.symm hc]
        · by_cases hmem : c' ∈ s.processed_chunks
          · simp [htext, hce, hmem, keyCount]
          · by_cases hcc : c' = c
            · subst hcc
              simp [htext, hce, hmem, keyCount, List.countP_cons]
            · simp [htext, hce, hmem, keyCount, List.countP_cons, hcc]

/-- Across a whole `run`: at most one emission per non-empty dedup key, and
none at all once the key is recorded. -/
theorem run_keyCount (inputs : List FirefliesInput) :
    ∀ (s : FirefliesService) (c : String), c ≠ "" →
      keyCount c (s.run inputs).2 ≤ 1 ∧
        (c ∈ s.processed_chunks → keyCount c (s.run inputs).2 = 0) := by
  induction inputs with
  | nil => intro s c _; simp [FirefliesService.run, keyCount]
  | cons ev evs ih =>
    intro s c hc
    rw [FirefliesService.run]
    have happ : keyCount c ((s.step ev).2 ++ ((s.step ev).1.run evs).2)
        = keyCount c (s.step ev).2 + keyCount c ((s.step ev).1.run evs).2 :=
      List.countP_append _ _ _
    simp only []
    rw [happ]
    have hstep := step_keyCount s ev c hc
    have hrun := ih (s.step ev).1 c hc
    constructor
    · by_cases hmem : c ∈ s.processed_chunks
      · rw [hstep.1 hmem, hrun.2 (step_processed_mono s ev c hmem)]
        omega
      · rcases Nat.le_one_iff_eq_zero_or_eq_one.mp hstep.2.1 with h0 | h1
        · rw [h0]
          simpa using hrun.1
        · rw [h1, hrun.2 (hstep.2.2 (by omega))]
    · intro hmem
      rw [hstep.1 hmem, hrun.2 (step_processed_mono s ev c hmem)]

/-- Claim C2: two or more fragments carrying the same truthy dedup key
(`chunk_id`) yield at most one emitted segment with that key, in any stream
of events; concretely, two fragments sharing `chunk_id = "chunk-42"` yield
exactly one emitted segment, carrying the first fragment's text. -/
theorem dedup_key_emitted_at_most_once (mid : String) (inputs : List FirefliesInput)
    (c : String) (hc : c ≠ "") :
    keyCount c ((FirefliesService.init mid).run inputs).2 ≤ 1 ∧
      ((FirefliesService.init "m").run twoChunkEvents).2.map Segment.text = ["Hallo"] := by
  exact ⟨(run_keyCount inputs (FirefliesService.init mid) c hc).1, by decide⟩

/-- Witness for C2 at the concrete two-fragment scenario. -/
theorem dedup_key_emitted_at_most_once_witness :
    ("chunk-42" : String) ≠ "" ∧
      (keyCount "chunk-42" ((FirefliesService.init "m").run twoChunkEvents).2 ≤ 1 ∧
        ((FirefliesService.init "m").run twoChunkEvents).2.map Segment.text = ["Hallo"]) :=
  ⟨by decide, dedup_key_emitted_at_most_once "m" twoChunkEvents "chunk-42" (by decide)⟩

/-- Streaming-path segments never carry a `sentence_index`, and the
streaming path never moves `_last_sentence_index`. -/
theorem onTranscription_polling_state (s : FirefliesService) (data : TranscriptionEvent) :
    polledIndices (s.onTranscription data).2.toList = [] ∧
      (s.onTranscription data).1.last_sentence_index = s.last_sentence_index := by
  obtain ⟨chunk_id, txt, sp, st, et⟩ := data
  unfold FirefliesService.onTranscription FirefliesService.emitRealtimeSegment
  cases chunk_id with
  | none =>
    by_cases htext : pyStrip txt = "" <;> simp [htext, polledIndices]
  | some c =>
    by_cases htext : pyStrip txt = ""
    · simp [htext, polledIndices]
    · by_cases hce : c = ""
      · simp [htext, hce, polledIndices]
      · by_cases hmem : c ∈ s.processed_chunks <;>
          simp [htext, hce, hmem, polledIndices]

/-- On the polling path the tracker only increases, emitted sentence indices
strictly increase, and every emitted index lies strictly between the tracker
value before the call and the tracker value after it. -/
theorem processPolledSentences_indices (sents : List Sentence) :
    ∀ (s : FirefliesService),
      s.last_sentence_index ≤ (s.processPolledSentences sents).1.last_sentence_index ∧
        List.Pairwise (· < ·) (polledIndices (s.processPolledSentences sents).2) ∧
        (∀ i ∈ polledIndices (s.processPolledSentences sents).2,
          s.last_sentence_index < i ∧
            i ≤ (s.processPolledSentences sents).1.last_sentence_index) := by
  induction sents with
  | nil =>
    intro s
    simp [FirefliesService.processPolledSentences, polledIndices]
  | cons sent rest ih =>
    intro s
    rw [FirefliesService.processPolledSentences]
    split
    · exact ih s
    · rename_i hgt
      have hlt : s.last_sentence_index < sent.index := Nat.lt_of_not_le hgt
      simp only []
      split
      · have ihe := ih { s with last_sentence_index := sent.index }
        dsimp only [] at ihe
        refine ⟨by omega, ihe.2.1, ?_⟩
        intro i hi
        have := ihe.2.2 i hi
        omega
      · have ihe := ih { s with
          last_sentence_index := sent.index
          segment_number := s.segment_number + 1
          transcript_buffer := bufferAppend s.max_buffer_size s.transcript_buffer
            (pyStrip sent.text) }
        dsimp only [] at ihe
        simp only [polledIndices] at ihe ⊢
        simp only [List.filterMap_cons]
        refine ⟨by omega, ?_, ?_⟩
        · rw [List.pairwise_cons]
          refine ⟨?_, ihe.2.1⟩
          intro i hi
          exact (ihe.2.2 i hi).1
        · intro i hi
          rcases List.mem_cons.mp hi with heq | hmem
          · subst heq
            exact ⟨hlt, ihe.1⟩
          · have := ihe.2.2 i hmem
            omega

/-- The per-`step` version of the polled-index invariant. -/
theorem step_indices (s : FirefliesService) (ev : FirefliesInput) :
    s.last_sentence_index ≤ (s.step ev).1.last_sentence_index ∧
      List.Pairwise (· < ·) (polledIndices (s.step ev).2) ∧
      (∀ i ∈ polledIndices (s.step ev).2,
        s.last_sentence_index < i ∧ i ≤ (s.step ev).1.last_sentence_index) := by
  cases ev with
  | broadcast data =>
    have h := onTranscription_polling_state s data
    rw [FirefliesService.step]
    simp only []
    rw [h.1, h.2]
    simp
  | polled sentences => exact processPolledSentences_indices sentences s

/-- Across a whole `run`, emitted polled sentence indices are strictly
increasing (in particular no index is ever emitted twice), each lying
strictly above the tracker value at the start of the run. -/
theorem run_indices (inputs : List FirefliesInput) :
    ∀ (s : FirefliesService),
      s.last_sentence_index ≤ (s.run inputs).1.last_sentence_index ∧
        List.Pairwise (· < ·) (polledIndices (s.run inputs).2) ∧
        (∀ i ∈ polledIndices (s.run inputs).2,
          s.last_sentence_index < i ∧ i ≤ (s.run inputs).1.last_sentence_index) := by
  induction inputs with
  | nil => intro s; simp [FirefliesService.run, polledIndices]
  | cons ev evs ih =>
    intro s
    rw [FirefliesService.run]
    simp only [polledIndices, List.filterMap_append]
    have h1 := step_indices s ev
    have h2 := ih (s.step ev).1
    simp only [polledIndices] at h1 h2
    refine ⟨by omega, ?_, ?_⟩
    · rw [List.pairwise_append]
      refine ⟨h1.2.1, h2.2.1, ?_⟩
      intro a ha b hb
      have hha := h1.2.2 a ha
      have hhb := h2.2.2 b hb
      omega
    · intro i hi
      rcases List.mem_append.mp hi with hm | hm
      · have ha := h1.2.2 i hm
        have hb := h2.1
        exact ⟨ha.1, by omega⟩
      · have ha := h2.2.2 i hm
        have hb := h1.1
        exact ⟨by omega, ha.2⟩

/-- Counterexample to claim C4 as stated: a polled sentence whose index (1)
is strictly greater than the highest index tracked in `_last_sentence_index`
(0, its starting value) is nevertheless NOT emitted when its stripped text is
empty — yet the tracker still advances to 1, so a later non-empty sentence
with index 1 would be dropped as well. -/
theorem polled_sentence_iff_counterexample :
    (FirefliesService.init "m").last_sentence_index = 0 ∧
      0 < 1 ∧
      ((FirefliesService.init "m").processPolledSentences
          [{ index := 1, text := " ", speaker_name := "A", start_time := 0, end_time := 0 }]).2
        = [] ∧
      ((FirefliesService.init "m").processPolledSentences
          [{ index := 1, text := " ", speaker_name := "A", start_time := 0, end_time := 0 }]).1.last_sentence_index
        = 1 := by
  decide

/-- Claim C4 (amended): (1) the connector moves to polling mode exactly on
the fourth consecutive connection failure — after three failures it is still
scheduling a reconnect, i.e. it polls only once `max_reconnect_attempts` (3)
reconnection attempts have all failed; (2) a fetched sentence is emitted iff
its index strictly exceeds `_last_sentence_index` at processing time AND its
stripped text is non-empty; (3) `_last_sentence_index` advances to the index
of every processed sentence exceeding it, emitted or not; (4) across any run
the emitted polled indices are strictly increasing — no index is ever
emitted twice — and index 0 is never emitted since the tracker starts at
0. -/
theorem polling_fallback_and_index_contract :
    ((fsConnecting.afterFailures 4).connection_mode = ConnectionMode.polling ∧
        (fsConnecting.afterFailures 3).connection_mode ≠ ConnectionMode.polling) ∧
      (∀ (s : FirefliesService) (sent : Sentence),
        (s.processPolledSentences [sent]).2 ≠ [] ↔
          (s.last_sentence_index < sent.index ∧ pyStrip sent.text ≠ "")) ∧
      (∀ (s : FirefliesService) (sent : Sentence),
        (s.processPolledSentences [sent]).1.last_sentence_index
          = max s.last_sentence_index sent.index) ∧
      (∀ (mid : String) (inputs : List FirefliesInput),
        List.Pairwise (· < ·) (polledIndices ((FirefliesService.init mid).run inputs).2) ∧
          ∀ i ∈ polledIndices ((FirefliesService.init mid).run inputs).2, 0 < i) := by
  refine ⟨by decide, ?_, ?_, ?_⟩
  · intro s sent
    rw [FirefliesService.processPolledSentences]
    split
    · rename_i hle
      simp only [FirefliesService.processPolledSentences]
      constructor
      · intro h; exact absurd rfl h
      · intro h; omega
    · rename_i hgt
      simp only []
      split
      · rename_i hempty
        simp only [FirefliesService.processPolledSentences]
        constructor
        · intro h; exact absurd rfl h
        · intro h
          exact absurd hempty h.2
      · rename_i hnonempty
        simp only [FirefliesService.processPolledSentences]
        constructor
        · intro _
          exact ⟨Nat.lt_of_not_le hgt, hnonempty⟩
        · intro _
          simp
  · intro s sent
    rw [FirefliesService.processPolledSentences]
    split
    · rename_i hle
      simp only [FirefliesService.processPolledSentences]
      omega
    · rename_i hgt
      simp only []
      split
      · simp only [FirefliesService.processPolledSentences]
        omega
      · simp only [FirefliesService.processPolledSentences]
        omega
  · intro mid inputs
    have h := run_indices inputs (FirefliesService.init mid)
    refine ⟨h.2.1, ?_⟩
    intro i hi
    exact (h.2.2 i hi).1

/-- Counterexample to claim C3 as stated: the LOCAL service's receive loop
forwards interim fragments too, so the three interim fragments plus the
final one yield four emitted segments, not exactly one (and the local
segment dict carries no segment number at all). -/
theorem local_final_only_scenario_counterexample :
    ((LocalTranscriptionService.init.start).run c3LocalMessages).2.length = 4 ∧
      ((LocalTranscriptionService.init.start).run c3LocalMessages).2.length ≠ 1 := by
  decide

/-- Claim C3 (amended): on the LOCAL path the scenario's four fragments all
pass the service's only filter (non-empty transcript), so four segments are
emitted — interim ones included, none carrying a segment number — while only
the final text "Hallo wie geht es dir" enters the full transcript; the
final-only single-segment behaviour holds for the Deepgram
`TranscriptionService` sequencer, where the same four fragments yield
exactly one segment, numbered 0, with text "Hallo wie geht es dir". -/
theorem local_and_deepgram_final_only_scenario :
    ((LocalTranscriptionService.init.start).run c3LocalMessages).2.map
        (fun seg => (seg.segment, seg.is_final))
      = [("Hallo", false), ("Hallo wie", false), ("Hallo wie geht", false),
         ("Hallo wie geht es dir", true)] ∧
      ((LocalTranscriptionService.init.start).run c3LocalMessages).1.full_transcript
        = ["Hallo wie geht es dir"] ∧
      ((LocalTranscriptionService.init.start).run c3LocalMessages).1.getFullTranscript
        = "Hallo wie geht es dir" ∧
      ((TranscriptionService.init "m").run c3DGResults).2.map
          (fun seg => (seg.segment_number, seg.text))
        = [(0, "Hallo wie geht es dir")] := by
  decide

/-- Claim C5: an authentication failure is terminal — `_on_auth_failed`
reports exactly one status event (`auth_failed`, carrying the error message)
and disconnects immediately: the resulting mode is `disconnected`, the
reconnect counter is untouched, and the action trace contains no sleep, no
reconnect attempt and no transition to polling. -/
theorem auth_failure_terminal (s : FirefliesService) (data_message : Option String) :
    statusEventsOf (s.onAuthFailed data_message).2
        = [{ status := "auth_failed",
             error := some (data_message.getD "Unknown authentication error") }] ∧
      ConnectorAction.retryConnect ∉ (s.onAuthFailed data_message).2 ∧
      ConnectorAction.spawnPollingLoop ∉ (s.onAuthFailed data_message).2 ∧
      (∀ d, ConnectorAction.sleep d ∉ (s.onAuthFailed data_message).2) ∧
      (s.onAuthFailed data_message).1.connection_mode = ConnectionMode.disconnected ∧
      (s.onAuthFailed data_message).1.is_authenticated = false ∧
      (s.onAuthFailed data_message).1.polling_active = false ∧
      (s.onAuthFailed data_message).1.reconnect_attempts = s.reconnect_attempts := by
  unfold FirefliesService.onAuthFailed FirefliesService.disconnect
  by_cases hp : s.connection_mode = ConnectionMode.polling <;>
    by_cases hs : s.has_sio <;>
      simp [hp, hs, statusEventsOf]

/-- Counterexample to claim C6 as stated: stopping a session id absent from
the registry does not produce a NotFound error — `stop_meeting` logs a
warning and returns, and the HTTP endpoint reports 200 `status="stopped"`,
"Meeting stopped successfully"; the registry map is left unchanged. -/
theorem stop_unknown_session_counterexample :
    MeetingManager.stopMeeting { sessions := [] } "missing-id"
        = ({ sessions := [] }, StopOutcome.notFoundWarning) ∧
      (stopMeetingEndpoint { sessions := [] } "missing-id").2
        = HttpReply.ok
            { meeting_id := "missing-id", status := "stopped",
              message := some "Meeting stopped successfully" } ∧
      (∀ code detail, (stopMeetingEndpoint { sessions := [] } "missing-id").2
        ≠ HttpReply.httpError code detail) := by
  refine ⟨by decide, by decide, ?_⟩
  intro code detail hcontra
  have hok : (stopMeetingEndpoint { sessions := [] } "missing-id").2
      = HttpReply.ok
          { meeting_id := "missing-id", status := "stopped",
            message := some "Meeting stopped successfully" } := by decide
  rw [hok] at hcontra
  exact HttpReply.noConfusion hcontra

/-- Claim C6 (amended): for every session id not present in the registry,
`stop_meeting` only logs a warning and returns without raising, leaving the
session map unchanged, and the stop endpoint answers 200 with
`status="stopped"` — there is no NotFound result on the stop path. -/
theorem stop_unknown_session_no_error (m : MeetingManager) (meeting_id : String)
    (h : m.lookup meeting_id = none) :
    m.stopMeeting meeting_id = (m, StopOutcome.notFoundWarning) ∧
      stopMeetingEndpoint m meeting_id
        = (m, HttpReply.ok
            { meeting_id := meeting_id, status := "stopped",
              message := some "Meeting stopped successfully" }) := by
  have hstop : m.stopMeeting meeting_id = (m, StopOutcome.notFoundWarning) := by
    unfold MeetingManager.stopMeeting
    rw [h]
  refine ⟨hstop, ?_⟩
  unfold stopMeetingEndpoint
  rw [hstop]

/-- Witness for C6 (amended) on the empty registry. -/
theorem stop_unknown_session_no_error_witness :
    MeetingManager.stopMeeting { sessions := [] } "x"
        = ({ sessions := [] }, StopOutcome.notFoundWarning) ∧
      stopMeetingEndpoint { sessions := [] } "x"
        = ({ sessions := [] }, HttpReply.ok
            { meeting_id := "x", status := "stopped",
              message := some "Meeting stopped successfully" }) :=
  stop_unknown_session_no_error { sessions := [] } "x" (by decide)

/-- `_on_transcription` appends exactly the emitted texts to the rolling
buffer and never touches its capacity. -/
theorem onTranscription_buffer (s : FirefliesService) (data : TranscriptionEvent) :
    (s.onTranscription data).1.transcript_buffer
        = ((s.onTranscription data).2.toList.map Segment.text).foldl
            (bufferAppend s.max_buffer_size) s.transcript_buffer ∧
      (s.onTranscription data).1.max_buffer_size = s.max_buffer_size := by
  obtain ⟨chunk_id, txt, sp, st, et⟩ := data
  unfold FirefliesService.onTranscription FirefliesService.emitRealtimeSegment
  cases chunk_id with
  | none => by_cases htext : pyStrip txt = "" <;> simp [htext]
  | some c =>
    by_cases htext : pyStrip txt = ""
    · simp [htext]
    · by_cases hce : c = ""
      · simp [htext, hce]
      · by_cases hmem : c ∈ s.processed_chunks <;> simp [htext, hce, hmem]

/-- The polling path appends exactly the emitted texts to the rolling buffer
and never touches its capacity. -/
theorem processPolledSentences_buffer (sents : List Sentence) :
    ∀ (s : FirefliesService),
      (s.processPolledSentences sents).1.transcript_buffer
          = ((s.processPolledSentences sents).2.map Segment.text).foldl
              (bufferAppend s.max_buffer_size) s.transcript_buffer ∧
        (s.processPolledSentences sents).1.max_buffer_size = s.max_buffer_size := by
  induction sents with
  | nil => intro s; simp [FirefliesService.processPolledSentences]
  | cons sent rest ih =>
    intro s
    rw [FirefliesService.processPolledSentences]
    split
    · exact ih s
    · simp only []
      split
      · exact ih _
      · have ihe := ih { s with
          last_sentence_index := sent.index
          segment_number := s.segment_number + 1
          transcript_buffer := bufferAppend s.max_buffer_size s.transcript_buffer
            (pyStrip sent.text) }
        dsimp only [] at ihe
        simp only [List.map_cons, List.foldl_cons]
        exact ihe

/-- Per step: the buffer is the fold of the emitted texts. -/
theorem step_buffer (s : FirefliesService) (ev : FirefliesInput) :
    (s.step ev).1.transcript_buffer
        = ((s.step ev).2.map Segment.text).foldl
            (bufferAppend s.max_buffer_size) s.transcript_buffer ∧
      (s.step ev).1.max_buffer_size = s.max_buffer_size := by
  cases ev with
  | broadcast data => exact onTranscription_buffer s data
  | polled sentences => exact processPolledSentences_buffer sentences s

/-- Across a run: the buffer is the fold of all emitted texts. -/
theorem run_buffer (inputs : List FirefliesInput) :
    ∀ (s : FirefliesService),
      (s.run inputs).1.transcript_buffer
          = ((s.run inputs).2.map Segment.text).foldl
              (bufferAppend s.max_buffer_size) s.transcript_buffer ∧
        (s.run inputs).1.max_buffer_size = s.max_buffer_size := by
  induction inputs with
  | nil => intro s; simp [FirefliesService.run]
  | cons ev evs ih =>
    intro s
    rw [FirefliesService.run]
    simp only [List.map_append, List.foldl_append]
    have h1 := step_buffer s ev
    have h2 := ih (s.step ev).1
    rw [← h1.1, ← h1.2]
    exact ⟨h2.1, h2.2⟩

/-- From a fresh service the rolling buffer holds exactly the last 50
emitted texts. -/
theorem run_buffer_lastN (mid : String) (inputs : List FirefliesInput) :
    ((FirefliesService.init mid).run inputs).1.transcript_buffer
      = lastN 50 (((FirefliesService.init mid).run inputs).2.map Segment.text) := by
  have h := run_buffer inputs (FirefliesService.init mid)
  rw [h.1]
  have := foldl_bufferAppend_lastN 50
    (((FirefliesService.init mid).run inputs).2.map Segment.text) [] (by simp)
  simpa using this.1

/-- Counterexample to claim C7 as stated: after 51 emitted final fragments
the transcript handed to the automation collaborator by `process_command` is
the 50-entry rolling buffer, not the ordered concatenation of all 51 final
segment texts — the oldest text has been evicted. -/
theorem command_full_transcript_counterexample :
    ((FirefliesService.run (FirefliesService.init "m") repeatedBroadcasts).2.map Segment.text)
        = List.replicate 51 "a" ∧
      ((managerAfter51.processCommandPayload 0 "m" "Was fehlt?").map
          (fun p => p.full_transcript))
        = some (String.intercalate " " (List.replicate 50 "a")) ∧
      String.intercalate " " (List.replicate 50 "a")
        ≠ String.intercalate " " (List.replicate 51 "a") := by
  refine ⟨by rfl, by rfl, by decide⟩

/-- Claim C7 (amended): for a Fireflies-backed session, `process_command`
hands the automation collaborator the concatenation of the most recent at
most 50 emitted final texts (the rolling buffer, FIFO eviction at capacity
50) — not necessarily all of them — together with the context summary
(duration, total segment count, per-speaker distribution). -/
theorem command_payload_contents (mid name url command : String)
    (start_time now segment_count : Nat) (speaker_stats : List (String × Nat))
    (wss : List WSConn) (evs : List FirefliesInput) :
    MeetingManager.processCommandPayload
        { sessions := [(mid,
            { MeetingSession.init mid name url start_time with
                fireflies := some ((FirefliesService.init mid).run evs).1
                segment_count := segment_count
                speaker_stats := speaker_stats
                websockets := wss })] }
        now mid command
      = some
          { meeting_id := mid
            command := command
            full_transcript := String.intercalate " "
              (lastN 50 (((FirefliesService.init mid).run evs).2.map Segment.text))
            conversation_context :=
              { duration_minutes := ((now - start_time : Nat) : ℚ) / 60
                total_segments := segment_count
                speaker_distribution := speaker_stats } } := by
  unfold MeetingManager.processCommandPayload MeetingManager.lookup
  rw [List.find?_cons_of_pos _ (by simp)]
  dsimp only [Option.map, MeetingSession.getDurationMinutes, FirefliesService.getFullTranscript,
    MeetingSession.init]
  rw [run_buffer_lastN]

/-- Claim C8: the webhook command call does configure a 30-second timeout,
but when that timeout fires, `send_command` raises `NameError("asyncio")`
instead of returning the structured fallback response: the handler clause
`except asyncio.TimeoutError` refers to a module name that
`webhook_manager.py` never imports. -/
theorem send_command_timeout_raises_name_error :
    send_command_timeout_total = 30 ∧
      "asyncio" ∉ webhookManagerModuleNames ∧
      WebhookManager.send_command
          (HttpAttempt.responds 200 { response := "ok", suggestions := [] } 31)
        = PyResult.raised (PyError.nameError "asyncio") ∧
      (∀ message, WebhookManager.send_command (HttpAttempt.failsWith message)
        = PyResult.raised (PyError.nameError "asyncio")) := by
  refine ⟨rfl, by decide, by decide, ?_⟩
  intro message
  simp only [WebhookManager.send_command]
  rw [if_neg (by decide)]

/-- The per-handle delivery loop delivers to exactly the non-failing handles
(in order) and collects exactly the failing ones. -/
theorem broadcastLoop_spec (websockets : List WSConn) :
    broadcastLoop websockets
      = ((websockets.filter (fun w => !w.send_fails)).map WSConn.ws_id,
         websockets.filter (fun w => w.send_fails)) := by
  induction websockets with
  | nil => rfl
  | cons ws rest ih =>
    rw [broadcastLoop]
    cases hf : ws.send_fails with
    | false =>
      rw [List.filter_cons_of_pos (by simp [hf]), List.filter_cons_of_neg (by simp [hf])]
      simp [WSConn.sendJson, hf, ih]
    | true =>
      rw [List.filter_cons_of_neg (by simp [hf]), List.filter_cons_of_pos (by simp [hf])]
      simp [WSConn.sendJson, hf, ih]

/-- Erasing elements not equal to the head leaves the head in place. -/
theorem foldl_erase_of_forall_ne {α : Type} [DecidableEq α] (x : α) :
    ∀ (ys l : List α), (∀ y ∈ ys, y ≠ x) →
      ys.foldl (fun acc a => acc.erase a) (x :: l)
        = x :: ys.foldl (fun acc a => acc.erase a) l
  | [], _, _ => rfl
  | y :: ys, l, h => by
    simp only [List.foldl_cons]
    rw [List.erase_cons, if_neg]
    · exact foldl_erase_of_forall_ne x ys (l.erase y) (fun z hz => h z (List.mem_cons_of_mem y hz))
    · have : x ≠ y := fun hxy => (h y (List.mem_cons_self y ys)) hxy.symm
      simp [this]

/-- Removing, one by one, every element satisfying `p` from a list leaves
exactly the elements not satisfying `p`. -/
theorem filter_foldl_erase {α : Type} [DecidableEq α] (p : α → Bool) :
    ∀ l : List α,
      (l.filter p).foldl (fun acc a => acc.erase a) l = l.filter (fun a => !(p a))
  | [] => rfl
  | x :: l => by
    cases hp : p x with
    | true =>
      rw [List.filter_cons_of_pos hp, List.filter_cons_of_neg (by simp [hp]),
        List.foldl_cons, List.erase_cons_head]
      exact filter_foldl_erase p l
    | false =>
      rw [List.filter_cons_of_neg (by simp [hp]), List.filter_cons_of_pos (by simp [hp]),
        foldl_erase_of_forall_ne x (l.filter p) l ?hne]
      · rw [filter_foldl_erase p l]
      case hne =>
        intro y hy hyx
        have := (List.mem_filter.mp hy).2
        rw [hyx, hp] at this
        exact Bool.noConfusion this

/-- Claim C9: a broadcast delivers to every registered handle independently;
a failing handle is caught and removed while every other handle is still
delivered to, and no failure escapes the broadcast (it is a total function
returning the surviving handles). Concretely, with three subscribers of
which the middle one throws, the other two are delivered to and only the
failing one is removed. -/
theorem broadcast_isolates_failures (websockets : List WSConn) :
    broadcastToWebsockets websockets
        = (websockets.filter (fun w => !w.send_fails),
           (websockets.filter (fun w => !w.send_fails)).map WSConn.ws_id) ∧
      broadcastToWebsockets
          [{ ws_id := 1, send_fails := false }, { ws_id := 2, send_fails := true },
           { ws_id := 3, send_fails := false }]
        = ([{ ws_id := 1, send_fails := false }, { ws_id := 3, send_fails := false }], [1, 3]) := by
  constructor
  · unfold broadcastToWebsockets
    rw [broadcastLoop_spec]
    dsimp only []
    rw [filter_foldl_erase]
  · decide

/-- `speaker_stats[k] = speaker_stats.get(k, 0) + 1` grows the total count by
exactly one. -/
theorem speakerStatsIncrement_total (stats : List (String × Nat)) (k : String) :
    statsTotal (speakerStatsIncrement stats k) = statsTotal stats + 1 := by
  induction stats with
  | nil => rfl
  | cons p rest ih =>
    obtain ⟨k', n⟩ := p
    rw [speakerStatsIncrement]
    by_cases hk : k' = k
    · rw [if_pos hk]
      simp [statsTotal]
      omega
    · rw [if_neg hk]
      simp [statsTotal] at ih ⊢
      omega

/-- The incremented key's count grows by exactly one. -/
theorem speakerStatsIncrement_lookup (stats : List (String × Nat)) (k : String) :
    statsLookup (speakerStatsIncrement stats k) k = statsLookup stats k + 1 := by
  induction stats with
  | nil => simp [speakerStatsIncrement, statsLookup, List.find?]
  | cons p rest ih =>
    obtain ⟨k', n⟩ := p
    rw [speakerStatsIncrement]
    by_cases hk : k' = k
    · rw [if_pos hk]
      subst hk
      simp [statsLookup, List.find?_cons_of_pos]
    · rw [if_neg hk]
      unfold statsLookup
      rw [List.find?_cons_of_neg _ (by simp [hk]), List.find?_cons_of_neg _ (by simp [hk])]
      exact ih

/-- Folding `MeetingManager._on_transcript` adds one to the session's counter
and one to the stats total per delivered segment. -/
theorem foldl_onTranscript_stats (speakers : List (Option String)) :
    ∀ (sess : MeetingSession),
      ((speakers.foldl MeetingSession.onTranscript sess).segment_count
          = sess.segment_count + speakers.length) ∧
        (statsTotal (speakers.foldl MeetingSession.onTranscript sess).speaker_stats
          = statsTotal sess.speaker_stats + speakers.length) := by
  induction speakers with
  | nil => intro sess; simp
  | cons sp rest ih =>
    intro sess
    simp only [List.foldl_cons, List.length_cons]
    have ihe := ih (sess.onTranscript sp)
    rw [ihe.1, ihe.2]
    unfold MeetingSession.onTranscript
    dsimp only []
    rw [speakerStatsIncrement_total]
    omega

/-- Claim C10: session statistics invariant. At creation `segment_count` is 0
and `speaker_stats` is empty; each delivered segment bumps `segment_count`
by one and the count of exactly one speaker key — `segment.get("speaker",
"unknown")` — by one; hence in every reachable session state the sum of the
per-speaker counts equals `segment_count`, which equals the number of
delivered segments. -/
theorem session_stats_invariant (mid name url : String) (t : Nat)
    (speakers : List (Option String)) :
    ((MeetingSession.init mid name url t).segment_count = 0 ∧
        statsTotal (MeetingSession.init mid name url t).speaker_stats = 0) ∧
      (∀ (sess : MeetingSession) (sp : Option String),
        (sess.onTranscript sp).segment_count = sess.segment_count + 1 ∧
          (sess.onTranscript sp).speaker_stats
            = speakerStatsIncrement sess.speaker_stats (sp.getD "unknown") ∧
          statsTotal (sess.onTranscript sp).speaker_stats
            = statsTotal sess.speaker_stats + 1 ∧
          statsLookup (sess.onTranscript sp).speaker_stats (sp.getD "unknown")
            = statsLookup sess.speaker_stats (sp.getD "unknown") + 1) ∧
      (statsTotal
          (speakers.foldl MeetingSession.onTranscript
            (MeetingSession.init mid name url t)).speaker_stats
        = (speakers.foldl MeetingSession.onTranscript
            (MeetingSession.init mid name url t)).segment_count ∧
        (speakers.foldl MeetingSession.onTranscript
            (MeetingSession.init mid name url t)).segment_count
          = speakers.length) := by
  refine ⟨⟨rfl, rfl⟩, ?_, ?_⟩
  · intro sess sp
    unfold MeetingSession.onTranscript
    dsimp only []
    exact ⟨rfl, rfl, speakerStatsIncrement_total _ _, speakerStatsIncrement_lookup _ _⟩
  · have h := foldl_onTranscript_stats speakers (MeetingSession.init mid name url t)
    have h0 : (MeetingSession.init mid name url t).segment_count = 0 := rfl
    have hs : statsTotal (MeetingSession.init mid name url t).speaker_stats = 0 := rfl
    rw [h.1, h.2, h0, hs]
    omega
